import Mathlib

/-!
A verification development for the Monte-Carlo subsurface-scattering simulator
in src/MCSimulation/MCSimulation.cpp.  The C++ float arithmetic is modelled by
exact real arithmetic; every definition below is a direct transcription of the
corresponding source code, with the random deviates consumed by the code made
explicit arguments.  Where exact arithmetic and IEEE floats can diverge
(square roots of negative numbers yield NaN in C++ but 0 for Real.sqrt,
log 0 yields -inf in C++ but 0 for Real.log) the divergence is noted at the
definition and the theorems are stated so that they do not depend on it.
-/

namespace MCS

/-- The sampler GetCosTheta of MCSimulation.cpp lines 15-20, with the uniform
deviate made an explicit argument.  The second branch returns
(1.0f * g * g - mu * mu) / (2.0f * g) exactly as coded: the numerator is
g * g - mu * mu (the leading 1.0f is a multiplicative factor in the source,
not an added term). -/
noncomputable def GetCosTheta (g xi : ℝ) : ℝ :=
  if g = 0 then 2 * xi - 1
  else
    let mu := (1 - g * g) / (1 - g + 2 * g * xi)
    (1 * g * g - mu * mu) / (2 * g)

/-- The Henyey-Greenstein inversion exactly as the specification words it
(spec section 4.1): cosTheta = (1 + g^2 - mu^2) / (2 g) with
mu = (1 - g^2) / (1 - g + 2 g xi), and 2 xi - 1 when g = 0.  This second,
spec-side definition exists only to be compared with GetCosTheta above. -/
noncomputable def specHGCosTheta (g xi : ℝ) : ℝ :=
  if g = 0 then 2 * xi - 1
  else
    let mu := (1 - g * g) / (1 - g + 2 * g * xi)
    (1 + g * g - mu * mu) / (2 * g)

/-- Squared Euclidean norm of a direction triple. -/
noncomputable def normSq (v : ℝ × ℝ × ℝ) : ℝ :=
  v.1 ^ 2 + v.2.1 ^ 2 + v.2.2 ^ 2

/-- ScatterPhoton of MCSimulation.cpp lines 22-51.  The in/out reference
parameters (mu_x, mu_y, mu_z) become an argument triple and a returned triple;
the two uniform deviates drawn inside (one in GetCosTheta, one for phi) are
the explicit arguments xi1 and xi2.  In C++, sqrt of a negative argument is
NaN while Real.sqrt of a negative argument is 0; the theorems below only rely
on this definition when 1 - cosTheta^2 >= 0, except for the explicit
counterexample, which is non-unit under either reading. -/
noncomputable def ScatterPhoton (g xi1 xi2 : ℝ) (mu : ℝ × ℝ × ℝ) : ℝ × ℝ × ℝ :=
  let cosTheta := GetCosTheta g xi1
  let phi := 2 * Real.pi * xi2
  let sinTheta := Real.sqrt (1 - cosTheta * cosTheta)
  let sinPhi := Real.sin phi
  let cosPhi := Real.cos phi
  if mu.2.2 = 1 then
    (sinTheta * cosPhi, sinTheta * sinPhi, cosTheta)
  else if mu.2.2 = -1 then
    (sinTheta * cosPhi, -sinTheta * sinPhi, -cosTheta)
  else
    let denom := Real.sqrt (1 - mu.2.2 * mu.2.2)
    let muzcosphi := mu.2.2 * cosPhi
    (sinTheta * (mu.1 * muzcosphi - mu.2.1 * sinPhi) / denom + mu.1 * cosTheta,
     sinTheta * (mu.2.1 * muzcosphi + mu.1 * sinPhi) / denom + mu.2.1 * cosTheta,
     -denom * sinTheta * cosPhi + mu.2.2 * cosTheta)

/-- Absorption coefficient sigma_a (MCSimulation.cpp line 56). -/
noncomputable def sigma_a : ℝ := 1

/-- Scattering coefficient sigma_s (line 56). -/
noncomputable def sigma_s : ℝ := 2

/-- Extinction coefficient sigma_t = sigma_a + sigma_s (line 56). -/
noncomputable def sigma_t : ℝ := sigma_a + sigma_s

/-- Slab thickness d (line 57). -/
noncomputable def d : ℝ := 0.5

/-- Anisotropy g = 0.75 (line 58); 0.75f is exactly representable. -/
noncomputable def g : ℝ := 0.75

/-- Lateral slab extent slabSize (line 59). -/
noncomputable def slabSize : ℝ := 2

/-- Russian-roulette parameter m (line 60). -/
def m : ℕ := 10

/-- Photons per pass (line 54). -/
def nrPhotons : ℕ := 1000000

/-- The support of std::uniform_real_distribution<float> distr(0.0f, 1.0f)
constructed at line 11: by the C++ library specification the produced values
lie in the half-open interval [0, 1), with 0 included. -/
def distrSupport : Set ℝ := {x | 0 ≤ x ∧ x < 1}

/-- The free path s = -log(xi) / sigma_t of line 74, returned as an Option:
some s for xi > 0, and none for xi = 0, where the C++ expression evaluates to
+infinity (an infinite free path rather than a finite real). -/
noncomputable def freePath (xi : ℝ) : Option ℝ :=
  if 0 < xi then some (-Real.log xi / sigma_t) else none

/-- Mutable per-photon state of the loop at lines 66-69. -/
structure Photon where
  x : ℝ
  y : ℝ
  z : ℝ
  mu_x : ℝ
  mu_y : ℝ
  mu_z : ℝ
  weight : ℝ

/-- The uniform deviates one loop iteration can consume: xiS for the free
path (line 74), xiR for roulette (line 107), xi1 and xi2 inside ScatterPhoton
(lines 16/18 and 25). -/
structure StepRand where
  xiS : ℝ
  xiR : ℝ
  xi1 : ℝ
  xi2 : ℝ

/-- The initial photon of lines 66-69: position (0,0,0), direction (0,0,1),
weight 1. -/
noncomputable def initPhoton : Photon := ⟨0, 0, 0, 0, 0, 1, 1⟩

/-- C-style (int) cast of a float: truncation toward zero (lines 86-87). -/
noncomputable def trunc (r : ℝ) : ℤ :=
  if 0 ≤ r then ⌊r⌋ else ⌈r⌉

/-- The grid projection of lines 86-87 applied to one lateral coordinate:
(int)((c + slabSize / 2.0f) / slabSize * size). -/
noncomputable def gridCoord (size : ℕ) (c : ℝ) : ℤ :=
  trunc ((c + slabSize / 2) / slabSize * size)

/-- The guarded grid write of lines 86-90 at photon exit: the cell (xi, yi)
receiving the weight, or none when the guard fails.  The guard is transcribed
exactly as coded at line 88:
mu_z > 0 && xi >= 0 && x < size && yi >= 0 && yi < size
(note that the third conjunct compares the float coordinate x, not the
computed index xi, against size). -/
noncomputable def exitWrite (size : ℕ) (p : Photon) : Option (ℤ × ℤ) :=
  let xi := gridCoord size p.x
  let yi := gridCoord size p.y
  if 0 < p.mu_z ∧ 0 ≤ xi ∧ p.x < (size : ℝ) ∧ 0 ≤ yi ∧ yi < (size : ℤ) then
    some (xi, yi)
  else none

/-- The sampled free path of line 74 as a plain real:
s = -log(xiS) / sigma_t.  (Real.log 0 = 0, so this junk-values the xiS = 0
case where C++ produces +infinity; theorems that depend on s hypothesise
0 < xiS.) -/
noncomputable def sOf (r : StepRand) : ℝ :=
  -Real.log r.xiS / sigma_t

/-- The boundary distance of lines 75-79: dist is initialised to 0.0f and
only overwritten when mu_z > 0 or mu_z < 0, so it remains 0 when mu_z = 0. -/
noncomputable def distOf (p : Photon) : ℝ :=
  if 0 < p.mu_z then (d - p.z) / p.mu_z
  else if p.mu_z < 0 then -p.z / p.mu_z
  else 0

/-- Result of one iteration of the while loop body (lines 72-113):
an exit (lines 82-93, carrying the Tt-versus-Rd side, the exiting weight and
the guarded grid write), a roulette termination (line 107), or the next
photon state. -/
inductive StepResult where
  | exitRes (tt : Bool) (w : ℝ) (write : Option (ℤ × ℤ))
  | absorbed
  | cont (p : Photon)

/-- One iteration of the while loop body, lines 72-113, with the deviates it
consumes passed in r.  Transcribed in source order: free path and boundary
distance; the exit test s > dist with its Tt/Rd side and guarded grid write;
otherwise the position update, absorption with clamp
weight = max(0, weight - sigma_a / sigma_t), the roulette test when
weight < 0.001, and the ScatterPhoton direction update. -/
noncomputable def step (size : ℕ) (p : Photon) (r : StepRand) : StepResult :=
  if distOf p < sOf r then
    StepResult.exitRes (if 0 < p.mu_z then true else false) p.weight (exitWrite size p)
  else
    let x := p.x + sOf r * p.mu_x
    let y := p.y + sOf r * p.mu_y
    let z := p.z + sOf r * p.mu_z
    let w := max 0 (p.weight - sigma_a / sigma_t)
    if w < 1 / 1000 then
      if 1 / (m : ℝ) < r.xiR then StepResult.absorbed
      else
        let mu := ScatterPhoton g r.xi1 r.xi2 (p.mu_x, p.mu_y, p.mu_z)
        StepResult.cont ⟨x, y, z, mu.1, mu.2.1, mu.2.2, w * (m : ℝ)⟩
    else
      let mu := ScatterPhoton g r.xi1 r.xi2 (p.mu_x, p.mu_y, p.mu_z)
      StepResult.cont ⟨x, y, z, mu.1, mu.2.1, mu.2.2, w⟩

/-- Outcome of one photon's whole walk: an exit with its data, a terminated
walk with no contribution (roulette kill, or the while-guard weight != 0
failing), or a still-propagating photon whose supply of modelled deviates ran
out (the C++ generator never runs out; this case is an artifact of passing
the deviates as a finite list). -/
inductive Outcome where
  | exited (tt : Bool) (w : ℝ) (write : Option (ℤ × ℤ))
  | dead
  | outOfRand (p : Photon)

/-- The while loop of lines 72-113: the guard weight != 0 is checked before
every iteration, and the body is one step. -/
noncomputable def walk (size : ℕ) : Photon → List StepRand → Outcome
  | p, [] => if p.weight = 0 then Outcome.dead else Outcome.outOfRand p
  | p, r :: rs =>
    if p.weight = 0 then Outcome.dead
    else
      match step size p r with
      | StepResult.exitRes tt w wr => Outcome.exited tt w wr
      | StepResult.absorbed => Outcome.dead
      | StepResult.cont q => walk size q rs

/-- The Rd contribution of one photon outcome (line 84: Rd += weight on an
entry-side exit). -/
noncomputable def outRd : Outcome → ℝ
  | Outcome.exited tt w _ => if tt then 0 else w
  | _ => 0

/-- The Tt contribution of one photon outcome (line 83: Tt += weight on a
far-side exit). -/
noncomputable def outTt : Outcome → ℝ
  | Outcome.exited tt w _ => if tt then w else 0
  | _ => 0

/-- The pass accumulator Rd of lines 62-114: every photon starts from
initPhoton and its outcome's Rd contribution is summed. -/
noncomputable def passRd (size : ℕ) : List (List StepRand) → ℝ
  | [] => 0
  | ds :: rest => outRd (walk size initPhoton ds) + passRd size rest

/-- The pass accumulator Tt of lines 63-114. -/
noncomputable def passTt (size : ℕ) : List (List StepRand) → ℝ
  | [] => 0
  | ds :: rest => outTt (walk size initPhoton ds) + passTt size rest

/-- The photon states that occur at the top of the while loop during a walk:
the initial photon, and everything one step reaches from a reachable state. -/
inductive Reachable (size : ℕ) : Photon → Prop
  | init : Reachable size initPhoton
  | next (p q : Photon) (r : StepRand) :
      Reachable size p → step size p r = StepResult.cont q → Reachable size q

/-- Claim C1: the claim states that for g differing from 0 GetCosTheta returns
(1 + g^2 - mu^2) / (2 g).  This theorem evaluates the code at the failing
input g = 1/2, xi = 0 (so mu = 3/2): the coded numerator 1.0f * g * g - mu * mu
gives -2, while the claimed formula, transcribed as specHGCosTheta, gives -1
there.  The code is a slip (the cited Henyey-Greenstein inversion needs the
added constant 1, and -2 is not even a cosine), so the claim is recorded as a
code bug. -/
theorem C1_code_eval :
    GetCosTheta (1 / 2) 0 = -2 ∧ specHGCosTheta (1 / 2) 0 = -1 ∧
      GetCosTheta (1 / 2) 0 ≠ specHGCosTheta (1 / 2) 0 := by
  norm_num [GetCosTheta, specHGCosTheta]

/-- Claim C2: the claim states that GetCosTheta always lands in [-1, 1] for
g in (-1, 1) and xi in [0, 1).  This theorem evaluates the code at the failing
input: at the program's own anisotropy g = 0.75 and the admissible deviate
xi = 0 (which lies in the support of distr), GetCosTheta returns -5/3,
strictly below -1.  The same numerator slip as in C1 is the cause, so the
claim is recorded as a code bug. -/
theorem C2_code_eval :
    (-1 < g ∧ g < 1) ∧ (0 : ℝ) ∈ distrSupport ∧ GetCosTheta g 0 < -1 := by
  refine ⟨by norm_num [g], ⟨le_refl 0, by norm_num⟩, ?_⟩
  norm_num [GetCosTheta, g]

/-- Claim C8, counterexample: the claim states the free-path deviate is drawn
from (0,1), excluding 0.  But the support of
std::uniform_real_distribution<float>(0.0f, 1.0f) is [0,1): 0 is a possible
draw, and at xi = 0 the free path -log(xi)/sigma_t is not a finite real
(freePath returns none, modelling the +infinity the C++ expression yields). -/
theorem C8_counterexample :
    (0 : ℝ) ∈ distrSupport ∧ freePath 0 = none := by
  exact ⟨⟨le_refl 0, by norm_num⟩, by simp [freePath]⟩

/-- Claim C8, amended: the deviate is drawn from [0, 1) with 0 included, so
the sampled free path is finite on every step whose deviate is nonzero, while
a draw of exactly 0 yields an infinite free path. -/
theorem C8_amended (xi : ℝ) (hmem : xi ∈ distrSupport) (hne : xi ≠ 0) :
    ∃ s, freePath xi = some s := by
  refine ⟨-Real.log xi / sigma_t, ?_⟩
  rw [freePath, if_pos (lt_of_le_of_ne hmem.1 (Ne.symm hne))]

/-- Claim C8, witness: the amended statement applied at the concrete deviate
1/2. -/
theorem C8_witness : ∃ s, freePath (1 / 2) = some s :=
  C8_amended (1 / 2) ⟨by norm_num, by norm_num⟩ (by norm_num)

/-- Claim C3, counterexample: with g = 1/2 (inside (-1,1)), deviates
xi1 = xi2 = 0 (inside [0,1)) and the unit input direction (0,0,1),
GetCosTheta returns -2, so sinTheta = sqrt(1 - 4) collapses (0 here, NaN in
C++ floats) and ScatterPhoton returns (0,0,-2), whose norm is 2: not within
1e-4 of 1 under either reading.  The claim as stated is therefore false. -/
theorem C3_counterexample :
    ScatterPhoton (1 / 2) 0 0 (0, 0, 1) = (0, 0, -2) ∧
      ¬ |Real.sqrt (normSq (ScatterPhoton (1 / 2) 0 0 (0, 0, 1))) - 1| ≤ 1 / 10000 := by
  have hc : GetCosTheta (1 / 2) 0 = -2 := by norm_num [GetCosTheta]
  have hsq : Real.sqrt (-3 : ℝ) = 0 := Real.sqrt_eq_zero'.mpr (by norm_num)
  have hval : ScatterPhoton (1 / 2) 0 0 (0, 0, 1) = (0, 0, -2) := by
    simp only [ScatterPhoton, hc]
    norm_num [hsq]
  refine ⟨hval, ?_⟩
  rw [hval]
  have h4 : normSq ((0 : ℝ), (0 : ℝ), (-2 : ℝ)) = 4 := by norm_num [normSq]
  rw [h4, show (4 : ℝ) = 2 ^ 2 by norm_num, Real.sqrt_sq (by norm_num : (0:ℝ) ≤ 2)]
  norm_num

/-- Claim C3, amended: for every unit input direction and every g in (-1,1),
PROVIDED the sampled cosine GetCosTheta g xi1 lies in [-1,1] (which the coded
sampler can violate, as the counterexample shows), the direction produced by
ScatterPhoton has exactly unit norm in exact arithmetic, in each of the three
branches, hence in particular norm within 1e-4 of 1 as the claim demands. -/
theorem C3_amended (ga xi1 xi2 : ℝ) (mu : ℝ × ℝ × ℝ)
    (_hga : -1 < ga ∧ ga < 1) (hunit : normSq mu = 1)
    (hcos : |GetCosTheta ga xi1| ≤ 1) :
    normSq (ScatterPhoton ga xi1 xi2 mu) = 1 ∧
      |Real.sqrt (normSq (ScatterPhoton ga xi1 xi2 mu)) - 1| ≤ 1 / 10000 := by
  obtain ⟨a, b, c0⟩ := mu
  have habs := abs_le.mp hcos
  have hunit' : a ^ 2 + b ^ 2 + c0 ^ 2 = 1 := by simpa [normSq] using hunit
  have key : normSq (ScatterPhoton ga xi1 xi2 (a, b, c0)) = 1 := by
    simp only [ScatterPhoton]
    set c := GetCosTheta ga xi1 with hcdef
    have hc2 : 0 ≤ 1 - c * c := by nlinarith [habs.1, habs.2]
    have hs : Real.sqrt (1 - c * c) ^ 2 = 1 - c * c := Real.sq_sqrt hc2
    set s := Real.sqrt (1 - c * c) with hsdef
    have hsp : Real.sin (2 * Real.pi * xi2) ^ 2 + Real.cos (2 * Real.pi * xi2) ^ 2 = 1 :=
      Real.sin_sq_add_cos_sq _
    set sp := Real.sin (2 * Real.pi * xi2) with hspdef
    set cp := Real.cos (2 * Real.pi * xi2) with hcpdef
    split_ifs with h1 h2
    · simp only [normSq] at h1 ⊢
      linear_combination (cp ^ 2 + sp ^ 2) * hs + (1 - c * c) * hsp
    · simp only [normSq] at h2 ⊢
      linear_combination (cp ^ 2 + sp ^ 2) * hs + (1 - c * c) * hsp
    · have hc0le : c0 ^ 2 ≤ 1 := by nlinarith [sq_nonneg a, sq_nonneg b]
      have hc0lt : c0 ^ 2 < 1 := by
        rcases lt_or_eq_of_le hc0le with h | h
        · exact h
        · exfalso
          have hzero : (c0 - 1) * (c0 + 1) = 0 := by nlinarith
          rcases mul_eq_zero.mp hzero with h' | h'
          · exact h1 (by linarith)
          · exact h2 (by linarith)
      have hD2 : Real.sqrt (1 - c0 * c0) ^ 2 = 1 - c0 * c0 :=
        Real.sq_sqrt (by nlinarith)
      have hD : Real.sqrt (1 - c0 * c0) ≠ 0 :=
        ne_of_gt (Real.sqrt_pos.mpr (by nlinarith))
      set D := Real.sqrt (1 - c0 * c0) with hDdef
      simp only [normSq]
      have expand :
          (s * (a * (c0 * cp) - b * sp) / D + a * c) ^ 2
            + (s * (b * (c0 * cp) + a * sp) / D + b * c) ^ 2
            + (-D * s * cp + c0 * c) ^ 2
          = ((s * (a * (c0 * cp) - b * sp) + a * c * D) ^ 2
            + (s * (b * (c0 * cp) + a * sp) + b * c * D) ^ 2
            + (-D * s * cp + c0 * c) ^ 2 * D ^ 2) / D ^ 2 := by
        field_simp
      rw [expand, div_eq_one_iff_eq (pow_ne_zero 2 hD)]
      linear_combination
        (s ^ 2 * (c0 ^ 2 * cp ^ 2 + sp ^ 2) + 2 * s * c * D * c0 * cp + c ^ 2 * D ^ 2) * hunit'
        + (s ^ 2 * cp ^ 2 * (D ^ 2 + 1 - c0 ^ 2) - s ^ 2 - 2 * s * c * D * c0 * cp) * hD2
        + (s ^ 2 * (1 - c0 ^ 2)) * hsp
        + D ^ 2 * hs
  exact ⟨key, by rw [key, Real.sqrt_one]; norm_num⟩

/-- Claim C3, witness: the amended theorem applied at g = 0, xi1 = 1/2
(the sampled cosine is 0, inside [-1,1]), xi2 = 0, and unit input (0,0,1). -/
theorem C3_witness :
    normSq (ScatterPhoton 0 (1 / 2) 0 (0, 0, 1)) = 1 ∧
      |Real.sqrt (normSq (ScatterPhoton 0 (1 / 2) 0 (0, 0, 1))) - 1| ≤ 1 / 10000 :=
  C3_amended 0 (1 / 2) 0 (0, 0, 1) ⟨by norm_num, by norm_num⟩
    (by norm_num [normSq]) (by norm_num [GetCosTheta])

/-- Claim C4, counterexample: the claim states that with mu_z = 0 the photon
cannot be classified as exited on that step.  But the code initialises dist
to 0.0f and leaves it there when mu_z = 0, and the free path s is positive,
so s > dist holds and the photon exits.  Concretely: photon at z = 1/4
travelling laterally with direction (1,0,0) and weight 1, free-path deviate
1/2: the step returns an entry-side exit carrying weight 1 into Rd. -/
theorem C4_counterexample :
    step 512 ⟨0, 0, 1 / 4, 1, 0, 0, 1⟩ ⟨1 / 2, 0, 0, 0⟩ =
      StepResult.exitRes false 1 none := by
  have hlog : Real.log (1 / 2 : ℝ) < 0 := Real.log_neg (by norm_num) (by norm_num)
  have hspos : (0 : ℝ) < sOf ⟨1 / 2, 0, 0, 0⟩ := by
    rw [sOf]
    exact div_pos (by simpa using neg_pos.mpr hlog)
      (by norm_num [sigma_t, sigma_a, sigma_s])
  have hdist : distOf ⟨0, 0, 1 / 4, 1, 0, 0, 1⟩ = 0 := by
    simp [distOf]
  have hwrite : exitWrite 512 ⟨0, 0, 1 / 4, 1, 0, 0, 1⟩ = none := by
    simp only [exitWrite]
    rw [if_neg]
    intro h
    exact absurd h.1 (by norm_num)
  simp only [step]
  rw [if_pos (by rw [hdist]; exact hspos), hwrite]
  norm_num

/-- Claim C4, amended: when mu_z = 0 the boundary distance stays at its
initialisation 0 (it is not treated as infinite), so for any free-path deviate
in (0,1) the sampled path s is positive, s > dist holds, and the photon IS
classified as exited on that step: entry-side (mu_z > 0 fails), its full
weight goes to Rd, never to Tt, and no grid write happens. -/
theorem C4_amended (size : ℕ) (p : Photon) (r : StepRand)
    (hmu : p.mu_z = 0) (h0 : 0 < r.xiS) (h1 : r.xiS < 1) :
    step size p r = StepResult.exitRes false p.weight none := by
  have hdist : distOf p = 0 := by
    rw [distOf, hmu]
    norm_num
  have hspos : (0 : ℝ) < sOf r := by
    rw [sOf]
    exact div_pos (by simpa using neg_pos.mpr (Real.log_neg h0 h1))
      (by norm_num [sigma_t, sigma_a, sigma_s])
  have hwrite : exitWrite size p = none := by
    simp only [exitWrite]
    rw [if_neg]
    intro h
    rw [hmu] at h
    exact absurd h.1 (by norm_num)
  simp only [step]
  rw [if_pos (by rw [hdist]; exact hspos), hwrite, hmu]
  norm_num

/-- Claim C4, witness: the amended theorem applied at a concrete lateral
photon (z = 1/4, direction (1,0,0), weight 1/2) and deviate 1/4. -/
theorem C4_witness :
    step 512 ⟨0, 0, 1 / 4, 1, 0, 0, 1 / 2⟩ ⟨1 / 4, 0, 0, 0⟩ =
      StepResult.exitRes false (1 / 2) none :=
  C4_amended 512 ⟨0, 0, 1 / 4, 1, 0, 0, 1 / 2⟩ ⟨1 / 4, 0, 0, 0⟩ rfl
    (by norm_num) (by norm_num)

/-- Evaluation rule for the C-style cast: trunc x = n when x is nonnegative
and lies in [n, n+1). -/
lemma trunc_eq_of_nonneg (x : ℝ) (n : ℤ) (h0 : 0 ≤ x) (hle : (n : ℝ) ≤ x)
    (hlt : x < n + 1) : trunc x = n := by
  rw [trunc, if_pos h0]
  exact Int.floor_eq_iff.mpr ⟨hle, by linarith⟩

/-- The grid projection at lateral coordinate 1 with size 512: the index is
512, one past the last valid column. -/
lemma gridCoord_at_one : gridCoord 512 (1 : ℝ) = 512 := by
  rw [gridCoord]
  exact trunc_eq_of_nonneg _ 512 (by norm_num [slabSize]) (by norm_num [slabSize])
    (by norm_num [slabSize])

/-- The grid projection at lateral coordinate 255/256 with size 512: the
index is 511, the last valid row. -/
lemma gridCoord_at_y255 : gridCoord 512 (255 / 256 : ℝ) = 511 := by
  rw [gridCoord]
  exact trunc_eq_of_nonneg _ 511 (by norm_num [slabSize]) (by norm_num [slabSize])
    (by norm_num [slabSize])

/-- The grid projection at lateral coordinate 511/512 with size 512: the
index is 511, the last valid row. -/
lemma gridCoord_at_y511 : gridCoord 512 (511 / 512 : ℝ) = 511 := by
  rw [gridCoord]
  exact trunc_eq_of_nonneg _ 511 (by norm_num [slabSize]) (by norm_num [slabSize])
    (by norm_num [slabSize])

/-- Claim C5, counterexample: the claim states the weight reaches the grid
exactly when the exit is far-side and the projected cell lies within grid
bounds.  But the coded guard tests x < size where the claim needs xi < size:
a far-side exit at x = 1, y = 255/256 passes the guard (1 < 512) and writes,
although its projected column xi = 512 is out of bounds. -/
theorem C5_counterexample :
    (exitWrite 512 ⟨1, 255 / 256, 2 / 5, 0, 0, 1, 1⟩).isSome = true ∧
      gridCoord 512 (1 : ℝ) = 512 ∧ ¬ gridCoord 512 (1 : ℝ) < (512 : ℤ) := by
  refine ⟨?_, gridCoord_at_one, by rw [gridCoord_at_one]; norm_num⟩
  simp only [exitWrite]
  rw [if_pos]
  · rfl
  · refine ⟨by norm_num, ?_, by norm_num, ?_, ?_⟩
    · rw [gridCoord_at_one]; norm_num
    · rw [gridCoord_at_y255]; norm_num
    · rw [gridCoord_at_y255]; norm_num

/-- Claim C5, amended: on every exiting step (s > dist, weight nonzero so the
loop is still live) the walk records an exit whose side flag is mu_z > 0
(Tt on far-side, Rd otherwise), whose full current weight reaches the scalar
Tt + Rd aggregate, and whose grid write happens exactly when the coded guard
mu_z > 0 and xi >= 0 and x < size and yi >= 0 and yi < size holds - the
third conjunct compares the coordinate x, not the index xi, against size, so
a far-side exit with 1 <= x < size can write outside the first size columns
while an exit failing the guard still contributes its weight to the scalars
only. -/
theorem C5_amended (size : ℕ) (p : Photon) (r : StepRand) (rs : List StepRand)
    (hw : p.weight ≠ 0) (hexit : distOf p < sOf r) :
    walk size p (r :: rs) =
      Outcome.exited (if 0 < p.mu_z then true else false) p.weight (exitWrite size p) ∧
    outTt (walk size p (r :: rs)) + outRd (walk size p (r :: rs)) = p.weight ∧
    ((exitWrite size p).isSome = true ↔
      0 < p.mu_z ∧ 0 ≤ gridCoord size p.x ∧ p.x < (size : ℝ) ∧
        0 ≤ gridCoord size p.y ∧ gridCoord size p.y < (size : ℤ)) := by
  have hstep : step size p r =
      StepResult.exitRes (if 0 < p.mu_z then true else false) p.weight (exitWrite size p) := by
    simp only [step]
    rw [if_pos hexit]
  have hwalk : walk size p (r :: rs) =
      Outcome.exited (if 0 < p.mu_z then true else false) p.weight (exitWrite size p) := by
    simp only [walk]
    rw [if_neg hw, hstep]
  refine ⟨hwalk, ?_, ?_⟩
  · rw [hwalk]
    by_cases hmu : 0 < p.mu_z
    · simp [outTt, outRd, hmu]
    · simp [outTt, outRd, hmu]
  · simp only [exitWrite]
    split_ifs with h
    · simpa using h
    · simpa using h

/-- Claim C5, witness: the amended theorem applied to a photon exiting
far-side from the slab centre line; the guard holds and the write lands in
cell (256, 256). -/
theorem C5_witness :
    walk 512 ⟨0, 0, 2 / 5, 0, 0, 1, 1⟩ [⟨1 / 2, 0, 0, 0⟩] =
      Outcome.exited true 1 (some (256, 256)) := by
  have hlog : Real.log (1 / 2 : ℝ) = -Real.log 2 := by
    rw [show (1 / 2 : ℝ) = 2⁻¹ by norm_num, Real.log_inv]
  have hexit : distOf ⟨0, 0, 2 / 5, 0, 0, 1, 1⟩ < sOf ⟨1 / 2, 0, 0, 0⟩ := by
    rw [distOf, sOf]
    norm_num [sigma_t, sigma_a, sigma_s, d]
    rw [hlog]
    nlinarith [Real.log_two_gt_d9]
  have h := (C5_amended 512 ⟨0, 0, 2 / 5, 0, 0, 1, 1⟩ ⟨1 / 2, 0, 0, 0⟩ []
    (by norm_num) hexit).1
  have hc : gridCoord 512 (0 : ℝ) = 256 := by
    rw [gridCoord]
    exact trunc_eq_of_nonneg _ 256 (by norm_num [slabSize]) (by norm_num [slabSize])
      (by norm_num [slabSize])
  have hwrite : exitWrite 512 (⟨0, 0, 2 / 5, 0, 0, 1, 1⟩ : Photon) = some (256, 256) := by
    simp only [exitWrite]
    rw [if_pos]
    · rw [hc]
    · refine ⟨by norm_num, ?_, by norm_num, ?_, ?_⟩ <;> rw [hc] <;> norm_num
  rw [h, hwrite]
  norm_num

/-- Claim C6: the claim states the guard of the records write forces
0 <= xi < size and 0 <= yi < size, keeping the linear index yi * size + xi
inside [0, size * size).  This theorem evaluates the guard at the failing
exit state x = 1, y = 511/512 (size 512): the write fires with xi = 512 and
yi = 511, and the linear index 511 * 512 + 512 = 262144 equals size * size,
outside the claimed range.  The guard's third conjunct is coded as x < size
where yi's twin conjunct uses the index (yi < size), a clear slip for
xi < size, so the claim is recorded as a code bug. -/
theorem C6_eval :
    exitWrite 512 ⟨1, 511 / 512, 2 / 5, 0, 0, 1, 1⟩ = some (512, 511) ∧
      (511 * 512 + 512 : ℤ) = 512 * 512 ∧ ¬ (511 * 512 + 512 : ℤ) < 512 * 512 := by
  refine ⟨?_, by norm_num, by norm_num⟩
  simp only [exitWrite]
  rw [if_pos]
  · rw [gridCoord_at_one, gridCoord_at_y511]
  · refine ⟨by norm_num, ?_, by norm_num, ?_, ?_⟩
    · rw [gridCoord_at_one]; norm_num
    · rw [gridCoord_at_y511]; norm_num
    · rw [gridCoord_at_y511]; norm_num

/-- Any photon state a step continues with has nonnegative weight: the
absorption clamp max(0, weight - sigma_a / sigma_t) is nonnegative, and the
roulette boost multiplies it by the positive integer m. -/
lemma step_cont_weight_nonneg (size : ℕ) (p q : Photon) (r : StepRand)
    (h : step size p r = StepResult.cont q) : 0 ≤ q.weight := by
  simp only [step] at h
  split_ifs at h
  all_goals injection h with h'
  all_goals subst h'
  all_goals first
    | exact mul_nonneg (le_max_left _ _) (by positivity)
    | exact le_max_left _ _

/-- Any photon state a step continues with has weight at most 1, provided the
incoming weight is at most 1: the clamp cannot increase a weight at most 1,
and the roulette boost only fires below the threshold 0.001, where the
boosted weight m * w stays below 0.01. -/
lemma step_cont_weight_le_one (size : ℕ) (p q : Photon) (r : StepRand)
    (hw : p.weight ≤ 1) (h : step size p r = StepResult.cont q) : q.weight ≤ 1 := by
  have hdw : (0 : ℝ) ≤ sigma_a / sigma_t := by norm_num [sigma_a, sigma_s, sigma_t]
  have hm : ((m : ℕ) : ℝ) = 10 := by norm_num [m]
  simp only [step] at h
  split_ifs at h
  all_goals injection h with h'
  all_goals subst h'
  all_goals first
    | (show max 0 (p.weight - sigma_a / sigma_t) * ((m : ℕ) : ℝ) ≤ 1
       rw [hm]
       linarith)
    | exact max_le (by norm_num) (by linarith)

/-- The weight a step's exit carries is the photon's current weight. -/
lemma step_exit_weight (size : ℕ) (p : Photon) (r : StepRand) (tt : Bool)
    (w : ℝ) (wr : Option (ℤ × ℤ)) (h : step size p r = StepResult.exitRes tt w wr) :
    w = p.weight := by
  simp only [step] at h
  split_ifs at h
  all_goals injection h with ht hwt hwr
  all_goals exact hwt.symm

/-- A walk from a photon whose weight is already 0 ends at once: the while
guard weight != 0 fails before any further step. -/
lemma walk_weight_zero (size : ℕ) (p : Photon) (ds : List StepRand)
    (h : p.weight = 0) : walk size p ds = Outcome.dead := by
  cases ds <;> simp [walk, h]

/-- One photon's total Rd + Tt contribution never exceeds 1 when its weight
starts at most 1: the exit deposits the current weight, which the invariant
bounds by 1, and every other outcome deposits 0. -/
lemma walk_contrib_le_one (size : ℕ) (ds : List StepRand) (p : Photon)
    (hw : p.weight ≤ 1) :
    outRd (walk size p ds) + outTt (walk size p ds) ≤ 1 := by
  induction ds generalizing p with
  | nil =>
    simp only [walk]
    split_ifs <;> simp [outRd, outTt]
  | cons r rs ih =>
    simp only [walk]
    split_ifs with h0
    · simp [outRd, outTt]
    · rcases hstep : step size p r with _ | _ | q
      · have hwex := step_exit_weight size p r _ _ _ hstep
        subst hwex
        simp only [outRd, outTt]
        split_ifs <;> simpa using hw
      · simp [outRd, outTt]
      · simpa using ih q (step_cont_weight_le_one size p q r hw hstep)

/-- Claim C9: a photon's weight is never negative: it starts at 1, the
absorption step clamps it to max(0, -), and the roulette boost by the
positive factor m preserves nonnegativity, so every photon state reachable
at a loop boundary has weight at least 0. -/
theorem C9_thm (size : ℕ) (p : Photon) (h : Reachable size p) : 0 ≤ p.weight := by
  induction h with
  | init => norm_num [initPhoton]
  | next p q r hr hstep ih => exact step_cont_weight_nonneg size p q r hstep

/-- Claim C9, witness: the theorem applied to the initial photon, reachable
by definition, whose weight is 1. -/
theorem C9_witness : 0 ≤ initPhoton.weight :=
  C9_thm 512 initPhoton Reachable.init

/-- Claim C7: with the program's parameters (m = 10, threshold 0.001,
initial weight 1) every reachable photon state has weight at most 1, and
consequently the per-pass sums satisfy Rd + Tt <= number of photons in the
pass (each photon deposits at most its current weight, at most once). -/
theorem C7_thm (size : ℕ) :
    (∀ p : Photon, Reachable size p → p.weight ≤ 1) ∧
      ∀ dss : List (List StepRand),
        passRd size dss + passTt size dss ≤ (dss.length : ℝ) := by
  constructor
  · intro p h
    induction h with
    | init => norm_num [initPhoton]
    | next p q r hr hstep ih => exact step_cont_weight_le_one size p q r ih hstep
  · intro dss
    induction dss with
    | nil => simp [passRd, passTt]
    | cons ds rest ih =>
      have hone := walk_contrib_le_one size ds initPhoton (by norm_num [initPhoton])
      simp only [passRd, passTt, List.length_cons]
      push_cast
      linarith

/-- Claim C7, witness: the theorem applied at the initial photon (reachable,
weight 1 <= 1) and at the empty pass (sum 0 <= 0 photons). -/
theorem C7_witness :
    initPhoton.weight ≤ 1 ∧
      passRd 512 [] + passTt 512 [] ≤ (([] : List (List StepRand)).length : ℝ) :=
  ⟨(C7_thm 512).1 initPhoton Reachable.init, (C7_thm 512).2 []⟩

/-- Claim C10: whenever the clamp of the absorption step produces weight
exactly 0 (the step does not exit and the incoming weight is at most
sigma_a / sigma_t), the photon's walk from that iteration on ends dead: the
roulette either terminates it in the same iteration, or the while guard
weight != 0 stops the loop before any further position update, so the photon
reaches no exit and contributes nothing to Rd or Tt (and hence writes
nothing to the grid). -/
theorem C10_thm (size : ℕ) (p : Photon) (r : StepRand) (rs : List StepRand)
    (hnoexit : ¬ distOf p < sOf r) (hw : p.weight ≤ sigma_a / sigma_t) :
    walk size p (r :: rs) = Outcome.dead ∧
      outRd (walk size p (r :: rs)) = 0 ∧ outTt (walk size p (r :: rs)) = 0 := by
  have hdead : walk size p (r :: rs) = Outcome.dead := by
    by_cases h0 : p.weight = 0
    · exact walk_weight_zero size p _ h0
    · have hmax : max 0 (p.weight - sigma_a / sigma_t) = 0 :=
        max_eq_left (by linarith)
      simp only [walk]
      rw [if_neg h0]
      simp only [step]
      rw [if_neg hnoexit, hmax]
      rw [if_pos (by norm_num : (0 : ℝ) < 1 / 1000)]
      split_ifs with h3
      · rfl
      · exact walk_weight_zero size _ rs (by norm_num)
  exact ⟨hdead, by rw [hdead]; rfl, by rw [hdead]; rfl⟩

/-- Claim C10, witness: the theorem applied to a photon at the entry face
with weight exactly sigma_a / sigma_t = 1/3 and free-path deviate 1 (log 1 =
0, so s = 0 and the step does not exit): the clamp produces 0 and the walk
dies with no contribution. -/
theorem C10_witness :
    walk 512 ⟨0, 0, 0, 0, 0, 1, 1 / 3⟩ [⟨1, 0, 0, 0⟩] = Outcome.dead ∧
      outRd (walk 512 ⟨0, 0, 0, 0, 0, 1, 1 / 3⟩ [⟨1, 0, 0, 0⟩]) = 0 ∧
      outTt (walk 512 ⟨0, 0, 0, 0, 0, 1, 1 / 3⟩ [⟨1, 0, 0, 0⟩]) = 0 :=
  C10_thm 512 ⟨0, 0, 0, 0, 0, 1, 1 / 3⟩ ⟨1, 0, 0, 0⟩ []
    (by norm_num [distOf, sOf, d, Real.log_one])
    (by norm_num [sigma_a, sigma_s, sigma_t])

end MCS
